import Mathlib

set_option maxRecDepth 1800
set_option exponentiation.threshold 1100

/-!
Verification of the argo-rollouts demo backend (backend/api.go, the current
revision: the one with the atomic error rate, the optional Redis client and
the Prometheus fallback in the metrics handler).

The Go service is embedded shallowly:

* float64 values are represented by the exact rational they denote; every
  float64 arithmetic operation of the source (division by 100, multiplication
  by 100) is modelled as the exact rational operation followed by IEEE-754
  round-to-nearest-even at 53 bits of precision (function roundF below).
  All values arising here lie well inside the normal range of float64, so
  overflow and subnormals are irrelevant.
* The Prometheus counter vector httpRequestsTotal is an association list from
  (endpoint, status_code) label pairs to counts, with at most one entry per
  label pair, exactly as a CounterVec keeps one child per label combination.
* The Redis store is an optional record of the two keys status_200 and
  status_500; a key maps to none when it is absent or unreadable (the source
  discards the error of Get(...).Float64(), which then yields zero), and the
  whole record is none when redisClient is nil (startup ping failed).
* The goroutine go redisClient.Incr(...) fired by the check handler is
  modelled by a list of in-flight increments (pending); a separate scheduler
  step applyPendingAt lands one of them, in any order.
-/

namespace ArgoDemo

/-! ## Exact model of float64 rounding -/

/-- Two to a natural power, as an integer.  Via Nat.pow, so that concrete
instances evaluate fast in the kernel. -/
def intPow2 (k : ℕ) : ℤ := ((2 ^ k : ℕ) : ℤ)

/-- Two to an integer power, as a rational. -/
def pow2 (z : ℤ) : ℚ :=
  if 0 ≤ z then ((intPow2 z.toNat : ℤ) : ℚ) else ((intPow2 (-z).toNat : ℤ) : ℚ)⁻¹

/-- Whether the positive fraction n / d is below two to the power t; pure
integer arithmetic. -/
def ltPow2 (n d t : ℤ) : Bool :=
  if 0 ≤ t then decide (n < d * intPow2 t.toNat)
  else decide (n * intPow2 (-t).toNat < d)

/-- Binary search for the exponent: narrows the invariant 2 to the lo ≤
n / d < 2 to the hi down to hi = lo + 1. -/
def expSearch : ℕ → ℤ → ℤ → ℤ → ℤ → ℤ
  | 0, lo, _, _, _ => lo
  | fuel + 1, lo, hi, n, d =>
    if hi ≤ lo + 1 then lo
    else if ltPow2 n d ((lo + hi) / 2) then expSearch fuel lo ((lo + hi) / 2) n d
    else expSearch fuel ((lo + hi) / 2) hi n d

/-- The integer z with 2 to the z ≤ n / d < 2 to the z+1, for positive
fractions n / d in the float64 range (the search brackets the whole range of
finite float64 exponents). -/
def intLog2 (n d : ℤ) : ℤ := expSearch 16 (-1075) 1025 n d

/-- Round the positive fraction n / d to the nearest float64 value (53-bit
significand, ties to the even significand).  The significand and remainder
are computed with integer arithmetic only.  Only used for values well inside
the normal float64 range. -/
def roundRat (n d : ℤ) : ℚ :=
  let e : ℤ := intLog2 n d - 52
  let a : ℤ := if 0 ≤ e then n else n * intPow2 (-e).toNat
  let b : ℤ := if 0 ≤ e then d * intPow2 e.toNat else d
  let m : ℤ := a / b
  let r : ℤ := a - m * b
  let m2 : ℤ :=
    if 2 * r < b then m
    else if b < 2 * r then m + 1
    else if m % 2 = 0 then m else m + 1
  (m2 : ℚ) * pow2 e

/-- Round-to-nearest-even at float64 precision, as performed by every Go
float64 arithmetic operation on its exact result. -/
def roundF (q : ℚ) : ℚ :=
  if q = 0 then 0
  else if q < 0 then -roundRat (-q.num) (q.den : ℤ)
  else roundRat q.num (q.den : ℤ)

/-! ## Data model of the service state (backend/api.go) -/

/-- The two Redis keys status_200 and status_500.  A key holds none when it
is absent (fresh store, or deleted by reset-metrics) or unreadable; the
handlers discard Get errors, which turns none into a zero count. -/
structure RedisState where
  s200 : Option Nat
  s500 : Option Nat
  deriving DecidableEq, Repr

/-- httpRequestsTotal: one counter per (endpoint, status_code) label pair. -/
abbrev PromCounters := List ((String × String) × Nat)

/-- Value of the counter with the given label pair (a CounterVec child that
was never incremented does not exist, hence counts as zero). -/
def promGet : PromCounters → String × String → Nat
  | [], _ => 0
  | (k, n) :: rest, l => if k = l then n else promGet rest l

/-- WithLabelValues(...).Inc(): bump the child with the given labels,
creating it at 1 when absent. -/
def promInc : PromCounters → String × String → PromCounters
  | [], l => [(l, 1)]
  | (k, n) :: rest, l =>
    if k = l then (k, n + 1) :: rest else (k, n) :: promInc rest l

/-- Whole-process state: the stored error rate (a float64, kept here as the
exact rational it denotes), the version tag read once from the environment,
the Prometheus counters, the optional Redis store and the in-flight
fire-and-forget Redis increments. -/
structure ServerState where
  errorRate : ℚ
  version : String
  prom : PromCounters
  redis : Option RedisState
  pending : List Nat
  deriving DecidableEq, Repr

/-- Fresh process attached to an empty reachable Redis store. -/
def initState (v : String) : ServerState :=
  { errorRate := 0, version := v, prom := [], redis := some ⟨none, none⟩,
    pending := [] }

/-- An HTTP response as far as the claims are concerned: the status code and
the X-Version header when set. -/
structure Response where
  status : Nat
  xVersion : Option String
  deriving DecidableEq, Repr

/-- fmt.Sprintf with the %d verb on the status code. -/
def statusLabel (n : Nat) : String := toString n

/-! ## Handlers -/

/-- The outcome decision of checkHandler: statusCode starts at 200 and
becomes 500 exactly when the random sample is below the current rate. -/
def decideStatus (sample rate : ℚ) : Nat := if sample < rate then 500 else 200

/-- GET /api/check (checkHandler).  The sample argument is the value drawn
from the mutex-guarded shared generator, a float64 in [0,1).  The Prometheus
increment happens synchronously; the Redis INCR is only fired (appended to
pending) and only when the client is non-nil. -/
def checkHandler (sample : ℚ) (s : ServerState) : Response × ServerState :=
  let st := decideStatus sample s.errorRate
  ({ status := st, xVersion := some s.version },
   { s with
      prom := promInc s.prom ("/api/check", statusLabel st),
      pending := if s.redis.isSome then s.pending ++ [st] else s.pending })

/-- Redis INCR on the key of one status code: a missing key is created at 1. -/
def redisIncr (r : RedisState) (st : Nat) : RedisState :=
  if st = 200 then { r with s200 := some (r.s200.getD 0 + 1) }
  else if st = 500 then { r with s500 := some (r.s500.getD 0 + 1) }
  else r

/-- Scheduler step: the goroutine of the i-th in-flight increment runs and
lands its INCR on the store.  Without a store or such a goroutine, nothing
happens. -/
def applyPendingAt (i : Nat) (s : ServerState) : ServerState :=
  match s.redis with
  | none => s
  | some r =>
    match s.pending[i]? with
    | none => s
    | some st =>
      { s with redis := some (redisIncr r st), pending := s.pending.eraseIdx i }

/-- GET /api/healthz (healthzHandler): counts itself and returns 200 with no
X-Version header. -/
def healthzHandler (s : ServerState) : Response × ServerState :=
  ({ status := 200, xVersion := none },
   { s with prom := promInc s.prom ("/api/healthz", statusLabel 200) })

/-- A POST /api/set-error-rate request body, as the json decoder sees it:
not JSON at all, valid JSON without a value field (the field keeps its Go
zero value 0), or valid JSON carrying a number. -/
inductive Body where
  | malformed : Body
  | missingValue : Body
  | value : ℚ → Body
  deriving DecidableEq, Repr

/-- json.Decode into the ErrorRate struct: a decode error for malformed
input, otherwise the Value field, which defaults to the float64 zero value
when the body has no value key. -/
def decodeValue : Body → Option ℚ
  | .malformed => none
  | .missingValue => some 0
  | .value v => some v

/-- The range check and store of setErrorRate, after a successful decode:
400 on a value outside [0,100], otherwise the value divided by 100 (one
float64 division, hence one rounding) is stored and 200 returned. -/
def setErrorRateCore (v : ℚ) (s : ServerState) : Response × ServerState :=
  if v < 0 ∨ 100 < v then
    ({ status := 400, xVersion := none },
     { s with prom := promInc s.prom ("/api/set-error-rate", statusLabel 400) })
  else
    ({ status := 200, xVersion := none },
     { s with
        errorRate := roundF (v / 100),
        prom := promInc s.prom ("/api/set-error-rate", statusLabel 200) })

/-- POST /api/set-error-rate (setErrorRate): 400 on a decode error, then the
range check and store. -/
def setErrorRate (b : Body) (s : ServerState) : Response × ServerState :=
  match decodeValue b with
  | none =>
    ({ status := 400, xVersion := none },
     { s with prom := promInc s.prom ("/api/set-error-rate", statusLabel 400) })
  | some v => setErrorRateCore v s

/-- GET /api/error-rate (getErrorRateHandler): returns the stored rate times
100 (one float64 multiplication, hence one rounding) in the value field. -/
def getErrorRateHandler (s : ServerState) : (Response × ℚ) × ServerState :=
  (({ status := 200, xVersion := none }, roundF (s.errorRate * 100)),
   { s with prom := promInc s.prom ("/api/error-rate", statusLabel 200) })

/-- POST /api/reset-metrics (resetMetricsHandler): DEL of the two Redis keys
(delOk says whether the DEL round-trip succeeded; on failure only a warning
is logged), Reset() of the whole Prometheus vector, then the handler counts
itself. -/
def resetMetricsHandler (delOk : Bool) (s : ServerState) : Response × ServerState :=
  ({ status := 200, xVersion := none },
   { s with
      redis := match s.redis with
        | none => none
        | some r => some (if delOk then ⟨none, none⟩ else r),
      prom := promInc [] ("/api/reset-metrics", statusLabel 200) })

/-! ## The metrics snapshot -/

/-- The count200 value the metrics handler reads: zero when the client is
nil, and the status_200 key with Get errors discarded otherwise. -/
def redisC200 (s : ServerState) : Nat :=
  match s.redis with
  | none => 0
  | some r => r.s200.getD 0

/-- The count500 value the metrics handler reads, same conventions. -/
def redisC500 (s : ServerState) : Nat :=
  match s.redis with
  | none => 0
  | some r => r.s500.getD 0

/-- The Prometheus fallback of the metrics handler for one status code:
the collect loop keeps only series whose endpoint label is /api/check and
overwrites the corresponding count, which on a vector with unique label
pairs is exactly a lookup defaulting to zero. -/
def localCount (s : ServerState) (code : String) : Nat :=
  promGet s.prom ("/api/check", code)

/-- GET /api/metrics (metricsHandler), body part: Redis counts when at least
one of them is non-zero, otherwise the fall back to the local Prometheus
counts of the check endpoint. -/
def snapshot (s : ServerState) : Nat × Nat :=
  if redisC200 s = 0 ∧ redisC500 s = 0 then
    (localCount s "200", localCount s "500")
  else (redisC200 s, redisC500 s)

/-- GET /api/metrics, full response: always HTTP 200 and a JSON object with
exactly the literal keys 200 and 500.  The handler reads no other state and
writes none. -/
def metricsHandler (s : ServerState) : (Response × List (String × Nat)) × ServerState :=
  (({ status := 200, xVersion := none },
    [("200", (snapshot s).1), ("500", (snapshot s).2)]), s)

/-! ## Evaluation lemmas for the float model

Concrete values of roundF, computed once here and reused below.  The one-shot
reduction of a nested roundF application is too deep for the elaborator, so
the nested case is staged through the single-application lemmas. -/

/-- Unfolding of roundRat with every intermediate quantity supplied, for
staged evaluation at concrete inputs. -/
theorem roundRat_steps (n d e a b m r m2 : ℤ)
    (he : intLog2 n d - 52 = e)
    (ha : (if 0 ≤ e then n else n * intPow2 (-e).toNat) = a)
    (hb : (if 0 ≤ e then d * intPow2 e.toNat else d) = b)
    (hm : a / b = m)
    (hr : a - m * b = r)
    (hm2 : (if 2 * r < b then m
            else if b < 2 * r then m + 1
            else if m % 2 = 0 then m else m + 1) = m2) :
    roundRat n d = (m2 : ℚ) * pow2 e := by
  simp only [roundRat]
  rw [he, ha, hb, hm, hr, hm2]

/-- Unfolding of roundF on a positive rational with known numerator and
denominator. -/
theorem roundF_pos (q : ℚ) (n d : ℤ) (hq0 : ¬ q = 0) (hqneg : ¬ q < 0)
    (hn : q.num = n) (hd : (q.den : ℤ) = d) :
    roundF q = roundRat n d := by
  simp only [roundF]
  rw [if_neg hq0, if_neg hqneg, hn, hd]

/-- The float64 nearest to 7/100 is strictly above it: rounding 7/100 gives
5044031582654956 times 2 to the -56. -/
theorem roundF_7_100 :
    roundF ((7 : ℚ) / 100) = mkRat 5044031582654956 72057594037927936 := by
  with_unfolding_all rfl

/-- Multiplying the stored fraction for 7 percent back by 100 and rounding
gives 7 plus 2 to the -50, not 7. -/
theorem roundF_7_100_back :
    roundF (mkRat 5044031582654956 72057594037927936 * 100)
      = mkRat 7881299347898369 1125899906842624 := by
  rw [show (mkRat 5044031582654956 72057594037927936 * 100 : ℚ)
      = mkRat 31525197391593475 4503599627370496 from by with_unfolding_all rfl]
  rw [roundF_pos (mkRat 31525197391593475 4503599627370496)
      31525197391593475 4503599627370496
      (by with_unfolding_all exact of_decide_eq_true rfl)
      (by with_unfolding_all exact of_decide_eq_true rfl)
      (by with_unfolding_all rfl) (by with_unfolding_all rfl)]
  rw [roundRat_steps 31525197391593475 4503599627370496 (-50)
      35494216806390426619607410278400 4503599627370496 7881299347898368
      3377699720527872 7881299347898369
      (by with_unfolding_all rfl) (by with_unfolding_all rfl)
      (by with_unfolding_all rfl) (by with_unfolding_all rfl)
      (by with_unfolding_all rfl) (by with_unfolding_all rfl)]
  with_unfolding_all rfl

/-- The full wire round trip for the rate 7: the value reported back differs
from 7 by 2 to the -50. -/
theorem roundF_roundtrip7 :
    roundF (roundF ((7 : ℚ) / 100) * 100) = mkRat 7881299347898369 1125899906842624 := by
  rw [roundF_7_100, roundF_7_100_back]

theorem roundF_25 : roundF (25 : ℚ) = 25 := by
  with_unfolding_all rfl

theorem roundF_quarter : roundF ((25 : ℚ) / 100) = 25 / 100 := by
  with_unfolding_all rfl

/-- The stored fraction for a rate of 100 percent is exactly 1. -/
theorem roundF_100_100 : roundF ((100 : ℚ) / 100) = 1 := by
  with_unfolding_all rfl

theorem roundF_zero : roundF (0 : ℚ) = 0 := by
  simp [roundF]

/-! ## Step relations over the server state -/

/-- One observable event of the running process: a request to one of the six
routes, or the landing of an in-flight Redis increment goroutine. -/
inductive Step : ServerState → ServerState → Prop
  | check (sample : ℚ) (s : ServerState) : Step s (checkHandler sample s).2
  | land (i : ℕ) (s : ServerState) : Step s (applyPendingAt i s)
  | healthz (s : ServerState) : Step s (healthzHandler s).2
  | setRate (b : Body) (s : ServerState) : Step s (setErrorRate b s).2
  | getRate (s : ServerState) : Step s (getErrorRateHandler s).2
  | metrics (s : ServerState) : Step s (metricsHandler s).2
  | reset (delOk : Bool) (s : ServerState) : Step s (resetMetricsHandler delOk s).2

/-- Steps that only add check outcomes: a check request, or the landing of an
in-flight Redis increment. -/
inductive IncrStep : ServerState → ServerState → Prop
  | check (sample : ℚ) (s : ServerState) : IncrStep s (checkHandler sample s).2
  | land (i : ℕ) (s : ServerState) : IncrStep s (applyPendingAt i s)

/-- Administrative and meta requests: health check, get and set error rate,
and the metrics read itself. -/
inductive AdminStep : ServerState → ServerState → Prop
  | healthz (s : ServerState) : AdminStep s (healthzHandler s).2
  | setRate (b : Body) (s : ServerState) : AdminStep s (setErrorRate b s).2
  | getRate (s : ServerState) : AdminStep s (getErrorRateHandler s).2
  | metrics (s : ServerState) : AdminStep s (metricsHandler s).2

/-! ## Counter lemmas -/

theorem promGet_promInc_same (p : PromCounters) (k : String × String) :
    promGet (promInc p k) k = promGet p k + 1 := by
  induction p with
  | nil => simp [promGet, promInc]
  | cons hd tl ih =>
    obtain ⟨k1, n⟩ := hd
    by_cases h1 : k1 = k
    · simp [promGet, promInc, h1]
    · simp [promGet, promInc, h1, ih]

theorem promGet_promInc_other (p : PromCounters) (k l : String × String)
    (hne : l ≠ k) : promGet (promInc p l) k = promGet p k := by
  induction p with
  | nil => simp [promGet, promInc, hne]
  | cons hd tl ih =>
    obtain ⟨k1, n⟩ := hd
    by_cases h1 : k1 = l
    · subst h1
      simp [promGet, promInc, hne]
    · simp only [promInc, if_neg h1]
      by_cases h2 : k1 = k
      · simp [promGet, h2]
      · simp [promGet, h2, ih]

theorem promGet_promInc_le (p : PromCounters) (k l : String × String) :
    promGet p k ≤ promGet (promInc p l) k := by
  by_cases h : l = k
  · subst h
    rw [promGet_promInc_same]
    exact Nat.le_succ _
  · rw [promGet_promInc_other p k l h]

/-- Redis INCR can only increase the count read back for status 200. -/
theorem redisIncr_s200_le (r : RedisState) (st : Nat) :
    r.s200.getD 0 ≤ (redisIncr r st).s200.getD 0 := by
  unfold redisIncr
  split
  · exact Nat.le_succ _
  · split <;> exact Nat.le_refl _

/-- Redis INCR can only increase the count read back for status 500. -/
theorem redisIncr_s500_le (r : RedisState) (st : Nat) :
    r.s500.getD 0 ≤ (redisIncr r st).s500.getD 0 := by
  unfold redisIncr
  split
  · exact Nat.le_refl _
  · split
    · exact Nat.le_succ _
    · exact Nat.le_refl _

/-! ## Frame lemmas for the handlers -/

theorem checkHandler_state (sample : ℚ) (s : ServerState) :
    ((checkHandler sample s).2).redis = s.redis
    ∧ ((checkHandler sample s).2).version = s.version
    ∧ ((checkHandler sample s).2).errorRate = s.errorRate
    ∧ ((checkHandler sample s).2).prom
        = promInc s.prom ("/api/check", statusLabel (decideStatus sample s.errorRate)) :=
  ⟨rfl, rfl, rfl, rfl⟩

theorem applyPendingAt_state (i : ℕ) (s : ServerState) :
    ((applyPendingAt i s).prom = s.prom)
    ∧ ((applyPendingAt i s).version = s.version)
    ∧ ((applyPendingAt i s).errorRate = s.errorRate) := by
  unfold applyPendingAt
  cases s.redis with
  | none => exact ⟨rfl, rfl, rfl⟩
  | some r =>
    cases s.pending[i]? with
    | none => exact ⟨rfl, rfl, rfl⟩
    | some st => exact ⟨rfl, rfl, rfl⟩

theorem applyPendingAt_eq_none (i : ℕ) (s : ServerState) (h : s.redis = none) :
    applyPendingAt i s = s := by
  unfold applyPendingAt
  rw [h]

theorem applyPendingAt_eq_miss (i : ℕ) (s : ServerState) (r : RedisState)
    (h : s.redis = some r) (h2 : s.pending[i]? = none) :
    applyPendingAt i s = s := by
  unfold applyPendingAt
  rw [h, h2]

theorem applyPendingAt_eq_hit (i : ℕ) (s : ServerState) (r : RedisState)
    (st : Nat) (h : s.redis = some r) (h2 : s.pending[i]? = some st) :
    applyPendingAt i s
      = { s with redis := some (redisIncr r st), pending := s.pending.eraseIdx i } := by
  unfold applyPendingAt
  rw [h, h2]

theorem redisC200_applyPendingAt_le (i : ℕ) (s : ServerState) :
    redisC200 s ≤ redisC200 (applyPendingAt i s) := by
  cases hr : s.redis with
  | none => rw [applyPendingAt_eq_none i s hr]
  | some r =>
    cases hp : s.pending[i]? with
    | none => rw [applyPendingAt_eq_miss i s r hr hp]
    | some st =>
      rw [applyPendingAt_eq_hit i s r st hr hp]
      unfold redisC200
      rw [hr]
      exact redisIncr_s200_le r st

theorem redisC500_applyPendingAt_le (i : ℕ) (s : ServerState) :
    redisC500 s ≤ redisC500 (applyPendingAt i s) := by
  cases hr : s.redis with
  | none => rw [applyPendingAt_eq_none i s hr]
  | some r =>
    cases hp : s.pending[i]? with
    | none => rw [applyPendingAt_eq_miss i s r hr hp]
    | some st =>
      rw [applyPendingAt_eq_hit i s r st hr hp]
      unfold redisC500
      rw [hr]
      exact redisIncr_s500_le r st

/-- Every increment-only step leaves all four counter reads at least as
large as before. -/
theorem incrStep_mono (s s2 : ServerState) (h : IncrStep s s2) :
    redisC200 s ≤ redisC200 s2 ∧ redisC500 s ≤ redisC500 s2
    ∧ localCount s "200" ≤ localCount s2 "200"
    ∧ localCount s "500" ≤ localCount s2 "500" := by
  cases h with
  | check sample s =>
    refine ⟨Nat.le_of_eq ?_, Nat.le_of_eq ?_, ?_, ?_⟩
    · unfold redisC200
      rw [(checkHandler_state sample s).1]
    · unfold redisC500
      rw [(checkHandler_state sample s).1]
    · unfold localCount
      rw [(checkHandler_state sample s).2.2.2]
      exact promGet_promInc_le _ _ _
    · unfold localCount
      rw [(checkHandler_state sample s).2.2.2]
      exact promGet_promInc_le _ _ _
  | land i s =>
    refine ⟨redisC200_applyPendingAt_le i s, redisC500_applyPendingAt_le i s, ?_, ?_⟩
    · unfold localCount
      rw [(applyPendingAt_state i s).1]
    · unfold localCount
      rw [(applyPendingAt_state i s).1]

/-- Monotonicity of all four counter reads along any increment-only
execution. -/
theorem incrSteps_mono (s s2 : ServerState)
    (h : Relation.ReflTransGen IncrStep s s2) :
    redisC200 s ≤ redisC200 s2 ∧ redisC500 s ≤ redisC500 s2
    ∧ localCount s "200" ≤ localCount s2 "200"
    ∧ localCount s "500" ≤ localCount s2 "500" := by
  induction h with
  | refl => exact ⟨Nat.le_refl _, Nat.le_refl _, Nat.le_refl _, Nat.le_refl _⟩
  | tail hab hbc ih =>
    have h2 := incrStep_mono _ _ hbc
    exact ⟨Nat.le_trans ih.1 h2.1, Nat.le_trans ih.2.1 h2.2.1,
      Nat.le_trans ih.2.2.1 h2.2.2.1, Nat.le_trans ih.2.2.2 h2.2.2.2⟩

/-! ## Snapshot characterization -/

/-- The metrics handler serves the external-store values exactly when at
least one of the two Redis reads is non-zero. -/
def servedExternal (s : ServerState) : Prop :=
  ¬ (redisC200 s = 0 ∧ redisC500 s = 0)

instance servedExternalDec (s : ServerState) : Decidable (servedExternal s) := by
  unfold servedExternal
  infer_instance

theorem snapshot_external (s : ServerState) (h : servedExternal s) :
    snapshot s = (redisC200 s, redisC500 s) := by
  unfold snapshot
  rw [if_neg h]

theorem snapshot_fallback (s : ServerState) (h : ¬ servedExternal s) :
    snapshot s = (localCount s "200", localCount s "500") := by
  unfold snapshot
  rw [if_pos (not_not.mp h)]

/-! ## Version preservation -/

theorem setErrorRate_version (b : Body) (s : ServerState) :
    ((setErrorRate b s).2).version = s.version := by
  unfold setErrorRate setErrorRateCore
  split
  · rfl
  · split <;> rfl

theorem step_version (s s2 : ServerState) (h : Step s s2) :
    s2.version = s.version := by
  cases h with
  | check sample s => rfl
  | land i s => exact (applyPendingAt_state i s).2.1
  | healthz s => rfl
  | setRate b s => exact setErrorRate_version b s
  | getRate s => rfl
  | metrics s => rfl
  | reset delOk s => rfl

theorem steps_version (s s2 : ServerState)
    (h : Relation.ReflTransGen Step s s2) : s2.version = s.version := by
  induction h with
  | refl => rfl
  | tail hab hbc ih => rw [step_version _ _ hbc, ih]

/-! ## Administrative steps do not touch the check counters -/

theorem ne_of_fst_ne {a c : String} {b d : String} (h : a ≠ c) :
    (a, b) ≠ (c, d) := fun he => h (congrArg Prod.fst he)

theorem localCount_promInc_other (s2 s : ServerState) (ep : String) (lbl : String)
    (hprom : s2.prom = promInc s.prom (ep, lbl)) (hep : ep ≠ "/api/check")
    (c : String) : localCount s2 c = localCount s c := by
  unfold localCount
  rw [hprom, promGet_promInc_other _ _ _ (ne_of_fst_ne hep)]

theorem adminStep_frame (s s2 : ServerState) (h : AdminStep s s2) :
    s2.redis = s.redis
    ∧ (∀ c, localCount s2 c = localCount s c) := by
  cases h with
  | healthz s =>
    exact ⟨rfl, fun c => localCount_promInc_other _ s _ _ rfl (by decide) c⟩
  | setRate b s =>
    unfold setErrorRate setErrorRateCore
    split
    · exact ⟨rfl, fun c => localCount_promInc_other _ s _ _ rfl (by decide) c⟩
    · split
      · exact ⟨rfl, fun c => localCount_promInc_other _ s _ _ rfl (by decide) c⟩
      · exact ⟨rfl, fun c => localCount_promInc_other _ s _ _ rfl (by decide) c⟩
  | getRate s =>
    exact ⟨rfl, fun c => localCount_promInc_other _ s _ _ rfl (by decide) c⟩
  | metrics s => exact ⟨rfl, fun c => rfl⟩

theorem redisC200_congr (s s2 : ServerState) (h : s2.redis = s.redis) :
    redisC200 s2 = redisC200 s := by
  unfold redisC200
  rw [h]

theorem redisC500_congr (s s2 : ServerState) (h : s2.redis = s.redis) :
    redisC500 s2 = redisC500 s := by
  unfold redisC500
  rw [h]

/-- All four counter reads that feed the snapshot are zero. -/
def AllZero (s : ServerState) : Prop :=
  redisC200 s = 0 ∧ redisC500 s = 0
  ∧ localCount s "200" = 0 ∧ localCount s "500" = 0

/-- Right after a reset whose Redis DEL went through (or with no store at
all), every counter read is zero: the keys are gone and the Prometheus
vector only holds the reset-metrics self-count, which is not a check-endpoint
series. -/
theorem reset_allZero (delOk : Bool) (s : ServerState)
    (hdel : delOk = true ∨ s.redis = none) :
    AllZero (resetMetricsHandler delOk s).2 := by
  have hredis : ((resetMetricsHandler delOk s).2).redis = none
      ∨ ((resetMetricsHandler delOk s).2).redis = some ⟨none, none⟩ := by
    rcases hdel with h | h
    · subst h
      unfold resetMetricsHandler
      cases s.redis with
      | none => exact Or.inl rfl
      | some r => exact Or.inr rfl
    · unfold resetMetricsHandler
      rw [h]
      exact Or.inl rfl
  have hlocal : ∀ c, localCount (resetMetricsHandler delOk s).2 c = 0 := by
    intro c
    unfold localCount resetMetricsHandler
    rw [promGet_promInc_other _ _ _ (ne_of_fst_ne (by decide))]
    rfl
  rcases hredis with h | h
  · exact ⟨by simp [redisC200, h], by simp [redisC500, h], hlocal "200", hlocal "500"⟩
  · exact ⟨by simp [redisC200, h], by simp [redisC500, h], hlocal "200", hlocal "500"⟩

/-- Administrative steps preserve the all-zero state of the counters. -/
theorem adminSteps_allZero (s s2 : ServerState)
    (h : Relation.ReflTransGen AdminStep s s2) (hz : AllZero s) : AllZero s2 := by
  induction h with
  | refl => exact hz
  | tail hab hbc ih =>
    obtain ⟨hr, hl⟩ := adminStep_frame _ _ hbc
    exact ⟨(redisC200_congr _ _ hr).trans ih.1, (redisC500_congr _ _ hr).trans ih.2.1,
      (hl "200").trans ih.2.2.1, (hl "500").trans ih.2.2.2⟩

theorem snapshot_of_allZero (s : ServerState) (hz : AllZero s) :
    snapshot s = (0, 0) := by
  unfold snapshot
  rw [if_pos ⟨hz.1, hz.2.1⟩, hz.2.2.1, hz.2.2.2]

/-! ## Concrete scenario states -/

/-- A fresh process right after an administrative reset whose DEL reached
the store. -/
def afterReset : ServerState := (resetMetricsHandler true (initState "1")).2

/-- One check request after the reset (rate 0, so outcome 200); its Redis
INCR goroutine has not landed yet. -/
def oneCheck : ServerState := (checkHandler 0 afterReset).2

/-- Two check requests after the reset, both Redis INCR goroutines still in
flight. -/
def twoChecks : ServerState := (checkHandler 0 oneCheck).2

/-- The state after the first of the two in-flight increments lands. -/
def oneLanded : ServerState := applyPendingAt 0 twoChecks

/-- A state whose external store read fails on status_200 and returns 5 on
status_500. -/
def errStoreState : ServerState :=
  { errorRate := 0, version := "1", prom := [], redis := some ⟨none, some 5⟩,
    pending := [] }

/-! ## The claims -/

/-- C1: every metrics snapshot equals the local in-process check counts when
the external store reports both counters zero (which also covers the store
being unavailable, since a nil client leaves both reads at zero), and equals
the external-store values when at least one counter is non-zero; after a
reset, a fresh status-200 check whose external increment has not landed
yields the snapshot (1, 0) while the external store still reads zero. -/
theorem metrics_snapshot_fallback_rule (s : ServerState) :
    (redisC200 s = 0 ∧ redisC500 s = 0 →
      snapshot s = (localCount s "200", localCount s "500"))
    ∧ (¬ (redisC200 s = 0 ∧ redisC500 s = 0) →
      snapshot s = (redisC200 s, redisC500 s))
    ∧ (s.redis = none → redisC200 s = 0 ∧ redisC500 s = 0)
    ∧ (snapshot oneCheck = (1, 0)
       ∧ redisC200 oneCheck = 0 ∧ redisC500 oneCheck = 0) := by
  refine ⟨fun h => ?_, fun h => ?_, fun h => ?_, by decide, by decide, by decide⟩
  · unfold snapshot
    rw [if_pos h]
  · unfold snapshot
    rw [if_neg h]
  · exact ⟨by simp [redisC200, h], by simp [redisC500, h]⟩

theorem metrics_snapshot_fallback_rule_witness :
    snapshot twoChecks = (localCount twoChecks "200", localCount twoChecks "500")
    ∧ snapshot oneLanded = (redisC200 oneLanded, redisC500 oneLanded) :=
  ⟨(metrics_snapshot_fallback_rule twoChecks).1 (by decide),
   (metrics_snapshot_fallback_rule oneLanded).2.1 (by decide)⟩

/-- C2 counterexample: 7 lies in [0,100], yet setting the rate to 7 and
reading it back returns 7 plus 2 to the -50, not 7: the division by 100 when
storing and the multiplication by 100 when reading both round, and for 7 the
errors do not cancel. -/
theorem rate_roundtrip_cex :
    (0 : ℚ) ≤ 7 ∧ (7 : ℚ) ≤ 100
    ∧ ((getErrorRateHandler ((setErrorRate (Body.value 7) (initState "1")).2)).1).2 ≠ 7 := by
  refine ⟨by norm_num, by norm_num, ?_⟩
  have h1 : ((setErrorRate (Body.value 7) (initState "1")).2).errorRate
      = roundF ((7 : ℚ) / 100) := rfl
  show roundF (((setErrorRate (Body.value 7) (initState "1")).2).errorRate * 100) ≠ 7
  rw [h1, roundF_roundtrip7]
  decide

/-- C2 amended: the setRate-getRate round trip returns exactly p whenever p
and the stored fraction p/100 are themselves exactly representable float64
values (for example every multiple of 25); in general the reported value
carries the combined rounding error of the two float64 operations. -/
theorem rate_roundtrip_exact (p : ℚ) (s : ServerState)
    (h0 : 0 ≤ p) (h1 : p ≤ 100)
    (hp : roundF p = p) (hq : roundF (p / 100) = p / 100) :
    ((getErrorRateHandler ((setErrorRate (Body.value p) s).2)).1).2 = p := by
  have hnr : ¬ (p < 0 ∨ 100 < p) := by
    push_neg
    exact ⟨h0, h1⟩
  have h2 : ((setErrorRate (Body.value p) s).2).errorRate = roundF (p / 100) := by
    show ((setErrorRateCore p s).2).errorRate = roundF (p / 100)
    unfold setErrorRateCore
    rw [if_neg hnr]
  show roundF (((setErrorRate (Body.value p) s).2).errorRate * 100) = p
  rw [h2, hq]
  have h3 : p / 100 * 100 = p := by field_simp
  rw [h3, hp]

theorem rate_roundtrip_exact_witness :
    ((getErrorRateHandler ((setErrorRate (Body.value 25) (initState "1")).2)).1).2 = 25 :=
  rate_roundtrip_exact 25 (initState "1") (by norm_num) (by norm_num)
    roundF_25 roundF_quarter

/-- C3: a decoded value outside [0,100] makes set-error-rate answer 400 and
leaves the stored rate exactly as it was. -/
theorem setRate_out_of_range_rejected (b : Body) (v : ℚ) (s : ServerState)
    (hdec : decodeValue b = some v) (hout : v < 0 ∨ 100 < v) :
    ((setErrorRate b s).1).status = 400
    ∧ ((setErrorRate b s).2).errorRate = s.errorRate := by
  have hb : setErrorRate b s = setErrorRateCore v s := by
    unfold setErrorRate
    rw [hdec]
  rw [hb]
  unfold setErrorRateCore
  rw [if_pos hout]
  exact ⟨rfl, rfl⟩

theorem setRate_out_of_range_rejected_witness :
    ((setErrorRate (Body.value 150) (initState "1")).1).status = 400
    ∧ ((setErrorRate (Body.value 150) (initState "1")).2).errorRate
      = (initState "1").errorRate :=
  setRate_out_of_range_rejected (Body.value 150) 150 (initState "1") rfl
    (Or.inr (by norm_num))

/-- C4 counterexample: the health-check response of a process whose version
tag is "1" carries no X-Version header at all, so the version tag is not
attached to every response (only the check endpoint sets the header). -/
theorem version_header_missing_on_healthz :
    ((healthzHandler (initState "1")).1).xVersion = none
    ∧ (initState "1").version = "1" :=
  ⟨rfl, rfl⟩

/-- C4 amended: the version tag is fixed at process start and never mutated
by any step of the process, and every response of the check endpoint carries
exactly that tag in its X-Version header; the other endpoints set no
X-Version header. -/
theorem version_constant_on_check (s0 s : ServerState)
    (h : Relation.ReflTransGen Step s0 s) :
    s.version = s0.version
    ∧ ∀ sample, ((checkHandler sample s).1).xVersion = some s0.version := by
  have hv := steps_version s0 s h
  refine ⟨hv, fun sample => ?_⟩
  rw [show ((checkHandler sample s).1).xVersion = some s.version from rfl, hv]

theorem version_constant_on_check_witness :
    ((checkHandler 0 (initState "1")).1).xVersion = some ((initState "1").version) :=
  (version_constant_on_check (initState "1") (initState "1")
    Relation.ReflTransGen.refl).2 0

/-- C5: for any sample in [0,1), the outcome decision returns 200 at rate 0
and 500 at rate 1 (the stored fraction for 100 percent, which is exactly 1);
it returns failure exactly when the sample is below the rate, is total, and
is exactly the status the check handler answers with. -/
theorem decide_extremes (sample rate : ℚ) (s : ServerState)
    (h0 : 0 ≤ sample) (h1 : sample < 1) :
    decideStatus sample 0 = 200
    ∧ decideStatus sample 1 = 500
    ∧ (decideStatus sample rate = 500 ↔ sample < rate)
    ∧ ((checkHandler sample s).1).status = decideStatus sample s.errorRate
    ∧ ((setErrorRate (Body.value 100) s).2).errorRate = 1 := by
  refine ⟨?_, ?_, ?_, rfl, ?_⟩
  · unfold decideStatus
    rw [if_neg (not_lt.mpr h0)]
  · unfold decideStatus
    rw [if_pos h1]
  · unfold decideStatus
    split
    · simp [*]
    · simp [*]
  · show ((setErrorRateCore 100 s).2).errorRate = 1
    unfold setErrorRateCore
    rw [if_neg (by norm_num)]
    exact roundF_100_100

theorem decide_extremes_witness :
    decideStatus (mkRat 1 2) 0 = 200
    ∧ decideStatus (mkRat 1 2) 1 = 500
    ∧ (decideStatus (mkRat 1 2) 3 = 500 ↔ (mkRat 1 2 : ℚ) < 3)
    ∧ ((checkHandler (mkRat 1 2) (initState "1")).1).status
      = decideStatus (mkRat 1 2) ((initState "1").errorRate)
    ∧ ((setErrorRate (Body.value 100) (initState "1")).2).errorRate = 1 :=
  decide_extremes (mkRat 1 2) 3 (initState "1") (by decide) (by decide)

/-- C6: a reset whose external DEL goes through (or with no store attached),
followed by any number of administrative requests (health check, get or set
error rate, metrics reads) but no check requests and no landing increments,
yields the all-zero snapshot (0, 0): the snapshot counts only check-endpoint
outcomes and ignores the self-counts of the administrative endpoints,
including the reset endpoint itself. -/
theorem reset_then_snapshot_zero (delOk : Bool) (s s2 : ServerState)
    (hdel : delOk = true ∨ s.redis = none)
    (h : Relation.ReflTransGen AdminStep (resetMetricsHandler delOk s).2 s2) :
    snapshot s2 = (0, 0) :=
  snapshot_of_allZero s2 (adminSteps_allZero _ _ h (reset_allZero delOk s hdel))

theorem reset_then_snapshot_zero_witness :
    snapshot (healthzHandler (resetMetricsHandler true twoChecks).2).2 = (0, 0) :=
  reset_then_snapshot_zero true twoChecks _ (Or.inl rfl)
    (Relation.ReflTransGen.single (AdminStep.healthz _))

/-- C7 counterexample: after a reset, two check requests land in the local
counters while both external increments are still in flight; the snapshot
falls back to the local count 2, and when one increment then lands the next
snapshot serves the external value 1 — the 200-count of successive snapshots
decreases across the fallback switch although only increments happened. -/
theorem snapshot_decreases_across_switch :
    Relation.ReflTransGen IncrStep afterReset twoChecks
    ∧ IncrStep twoChecks oneLanded
    ∧ (snapshot twoChecks).1 = 2
    ∧ (snapshot oneLanded).1 = 1 := by
  refine ⟨?_, IncrStep.land 0 twoChecks, by decide, by decide⟩
  exact Relation.ReflTransGen.tail
    (Relation.ReflTransGen.single (IncrStep.check 0 afterReset))
    (IncrStep.check 0 oneCheck)

/-- C7 amended: along any increment-only execution, each source is
monotone — once a snapshot is served from the external store, all later
snapshots are too and never decrease; and when two snapshots are both served
from the local fallback, they never decrease either.  The count can only
drop at the single switch from the local fallback to the still-catching-up
external store. -/
theorem snapshot_monotone_same_source (s s2 : ServerState)
    (h : Relation.ReflTransGen IncrStep s s2) :
    (servedExternal s →
      servedExternal s2
      ∧ (snapshot s).1 ≤ (snapshot s2).1 ∧ (snapshot s).2 ≤ (snapshot s2).2)
    ∧ (¬ servedExternal s → ¬ servedExternal s2 →
      (snapshot s).1 ≤ (snapshot s2).1 ∧ (snapshot s).2 ≤ (snapshot s2).2) := by
  obtain ⟨m1, m2, m3, m4⟩ := incrSteps_mono s s2 h
  constructor
  · intro hs
    have hs2 : servedExternal s2 := by
      unfold servedExternal at hs ⊢
      intro hz2
      exact hs ⟨Nat.le_zero.mp (hz2.1 ▸ m1), Nat.le_zero.mp (hz2.2 ▸ m2)⟩
    rw [snapshot_external s hs, snapshot_external s2 hs2]
    exact ⟨hs2, m1, m2⟩
  · intro hs hs2
    rw [snapshot_fallback s hs, snapshot_fallback s2 hs2]
    exact ⟨m3, m4⟩

theorem snapshot_monotone_same_source_witness :
    servedExternal (applyPendingAt 0 oneLanded)
    ∧ (snapshot oneLanded).1 ≤ (snapshot (applyPendingAt 0 oneLanded)).1
    ∧ (snapshot oneLanded).2 ≤ (snapshot (applyPendingAt 0 oneLanded)).2 :=
  (snapshot_monotone_same_source oneLanded (applyPendingAt 0 oneLanded)
    (Relation.ReflTransGen.single (IncrStep.land 0 oneLanded))).1 (by decide)

/-- Folding any all-200 list of atomic INCR operations over the store adds
exactly the length of the list to the status_200 count. -/
theorem foldl_redisIncr_all200 (l : List ℕ) (r : RedisState)
    (hall : ∀ x ∈ l, x = 200) :
    ((l.foldl redisIncr r).s200.getD 0) = r.s200.getD 0 + l.length := by
  induction l generalizing r with
  | nil => simp
  | cons a t ih =>
    have ha : a = 200 := hall a (by simp)
    subst ha
    have ht : ∀ x ∈ t, x = 200 := fun x hx => hall x (by simp [hx])
    rw [List.foldl_cons, ih (redisIncr r 200) ht]
    have hone : (redisIncr r 200).s200.getD 0 = r.s200.getD 0 + 1 := by
      simp [redisIncr]
    rw [hone, List.length_cons]
    omega

/-- C8: N increments of the same status-code counter, arriving in any
interleaved order (each Redis INCR is a single atomic operation, so a
concurrent fan-out of the N operations is some sequence of them), leave the
counter larger by exactly N: no update is lost. -/
theorem concurrent_increments_no_lost_updates (N : ℕ) (l : List ℕ)
    (r : RedisState) (hlen : l.length = N) (hall : ∀ x ∈ l, x = 200) :
    ((l.foldl redisIncr r).s200.getD 0) = r.s200.getD 0 + N := by
  rw [foldl_redisIncr_all200 l r hall, hlen]

theorem concurrent_increments_no_lost_updates_witness :
    (([200, 200, 200] : List ℕ).foldl redisIncr ⟨none, none⟩).s200.getD 0
      = (⟨none, none⟩ : RedisState).s200.getD 0 + 3 :=
  concurrent_increments_no_lost_updates 3 [200, 200, 200] ⟨none, none⟩ rfl
    (by decide)

/-- C9: the metrics handler is total and never reports an error: for every
state of the process and of the external store it answers HTTP 200 with a
JSON object holding exactly the keys 200 and 500, an unreadable or missing
external key is treated as the count zero, and an unavailable store makes
both external reads zero (which then triggers the local fallback). -/
theorem metrics_endpoint_total (s : ServerState) :
    ((metricsHandler s).1).1.status = 200
    ∧ ((metricsHandler s).1).2.map Prod.fst = ["200", "500"]
    ∧ ((metricsHandler s).1).2 = [("200", (snapshot s).1), ("500", (snapshot s).2)]
    ∧ (∀ r, s.redis = some r → r.s200 = none → redisC200 s = 0)
    ∧ (∀ r, s.redis = some r → r.s500 = none → redisC500 s = 0)
    ∧ (s.redis = none → redisC200 s = 0 ∧ redisC500 s = 0) := by
  refine ⟨rfl, rfl, rfl, ?_, ?_, ?_⟩
  · intro r hr hn
    simp [redisC200, hr, hn]
  · intro r hr hn
    simp [redisC500, hr, hn]
  · intro h
    exact ⟨by simp [redisC200, h], by simp [redisC500, h]⟩

theorem metrics_endpoint_total_witness :
    ((metricsHandler errStoreState).1).1.status = 200
    ∧ redisC200 errStoreState = 0 :=
  ⟨(metrics_endpoint_total errStoreState).1,
   (metrics_endpoint_total errStoreState).2.2.2.1 ⟨none, some 5⟩ rfl rfl⟩

/-- C10: a valid JSON body without a value field decodes to the zero value,
which passes the range check: the request is answered 200 and the stored
rate becomes 0; malformed JSON is answered 400 with the rate untouched, and
any decoded in-range value is answered 200. -/
theorem missing_value_defaults_zero (v : ℚ) (s : ServerState)
    (h0 : 0 ≤ v) (h1 : v ≤ 100) :
    ((setErrorRate Body.missingValue s).1).status = 200
    ∧ ((setErrorRate Body.missingValue s).2).errorRate = 0
    ∧ ((setErrorRate Body.malformed s).1).status = 400
    ∧ ((setErrorRate Body.malformed s).2).errorRate = s.errorRate
    ∧ ((setErrorRate (Body.value v) s).1).status = 200 := by
  have hnr : ¬ ((0 : ℚ) < 0 ∨ (100 : ℚ) < 0) := by norm_num
  have hnv : ¬ (v < 0 ∨ 100 < v) := by
    push_neg
    exact ⟨h0, h1⟩
  refine ⟨?_, ?_, rfl, rfl, ?_⟩
  · show ((setErrorRateCore 0 s).1).status = 200
    unfold setErrorRateCore
    rw [if_neg hnr]
  · show ((setErrorRateCore 0 s).2).errorRate = 0
    unfold setErrorRateCore
    rw [if_neg hnr]
    show roundF ((0 : ℚ) / 100) = 0
    rw [show (0 : ℚ) / 100 = 0 by norm_num, roundF_zero]
  · show ((setErrorRateCore v s).1).status = 200
    unfold setErrorRateCore
    rw [if_neg hnv]

theorem missing_value_defaults_zero_witness :
    ((setErrorRate Body.missingValue (initState "1")).1).status = 200
    ∧ ((setErrorRate Body.missingValue (initState "1")).2).errorRate = 0
    ∧ ((setErrorRate Body.malformed (initState "1")).1).status = 400
    ∧ ((setErrorRate Body.malformed (initState "1")).2).errorRate
      = (initState "1").errorRate
    ∧ ((setErrorRate (Body.value 42) (initState "1")).1).status = 200 :=
  missing_value_defaults_zero 42 (initState "1") (by norm_num) (by norm_num)

end ArgoDemo
